import Mathlib

/-!
Verification of the IC50Prediction training core against its specification.

The development shallowly embeds the Python source:
* `FVal` models IEEE floating-point loss values at spec level: finite values
  are exact rationals, plus the two special values the code manipulates,
  `+infinity` (the initial best loss) and NaN (comparisons involving NaN are
  false, as in IEEE 754).  Rounding of finite arithmetic is not modelled; no
  verified property depends on it.
* `EarlyStopper` embeds `EarlyStopper` of `src/train.py` (package variant).
* `trainFrom` embeds the epoch loop of `IC50BertTrainer.train` of the same
  file, with the per-batch losses of each epoch abstracted as rational-valued
  inputs (the model, criterion and optimizer are external collaborators).
* The dataset, collation and device components follow, with the pandas,
  tokenizer and torch collaborators modelled from the spec where noted.
-/

/-- Spec-level model of a Python float as used by the training core:
an exact rational, `+infinity`, or NaN. -/
inductive FVal : Type
  | nan : FVal
  | inf : FVal
  | val : ℚ → FVal
deriving DecidableEq

/-- IEEE `<` on `FVal`: every comparison involving NaN is false, and
`+infinity` is strictly above every finite value. -/
def flt : FVal → FVal → Bool
  | .nan, _ => false
  | _, .nan => false
  | .inf, _ => false
  | .val _, .inf => true
  | .val a, .val b => decide (a < b)

/-- IEEE addition of a finite rational (`min_delta`) to an `FVal`. -/
def fadd : FVal → ℚ → FVal
  | .nan, _ => .nan
  | .inf, _ => .inf
  | .val a, d => .val (a + d)

/-- Non-strict comparison used to state monotonicity of the best loss:
equal, or strictly below. -/
def fle (a b : FVal) : Bool := decide (a = b) || flt a b

/-- State of `EarlyStopper` (src/train.py): configuration plus the two
mutable fields `counter` and `min_validation_loss`. -/
structure EarlyStopper : Type where
  patience : ℕ
  min_delta : ℚ
  counter : ℕ
  min_validation_loss : FVal
deriving DecidableEq

/-- `EarlyStopper.__init__`: `counter = 0`, `min_validation_loss = inf`. -/
def EarlyStopper.init (patience : ℕ) (min_delta : ℚ) : EarlyStopper :=
  ⟨patience, min_delta, 0, .inf⟩

/-- `EarlyStopper.early_stop(validation_loss)`: returns the updated state
together with the boolean result (`True` = STOP). -/
def EarlyStopper.early_stop (s : EarlyStopper) (validation_loss : FVal) :
    EarlyStopper × Bool :=
  if flt validation_loss s.min_validation_loss then
    ({ s with min_validation_loss := validation_loss, counter := 0 }, false)
  else if flt (fadd s.min_validation_loss s.min_delta) validation_loss then
    let c := s.counter + 1
    ({ s with counter := c }, decide (s.patience ≤ c))
  else
    (s, false)

/-- The state reached after a sequence of `early_stop` calls. -/
def stateAfter (s : EarlyStopper) (vs : List FVal) : EarlyStopper :=
  vs.foldl (fun t v => (t.early_stop v).1) s

/-- Index of the first call on which the monitor signals STOP when fed
`g e, g (e+1), ...` for `fuel` calls, starting from state `s`. -/
def firstStop (g : ℕ → FVal) : EarlyStopper → ℕ → ℕ → Option ℕ
  | _, _, 0 => none
  | s, e, fuel + 1 =>
    if (s.early_stop (g e)).2 then some e
    else firstStop g (s.early_stop (g e)).1 (e + 1) fuel

/-- The dictionary returned by `IC50BertTrainer.train`
(`avg_episode_losses`): the recorded `"Train"` and `"Validation"` lists. -/
structure TrainResult where
  trainLosses : List ℚ
  valLosses : List ℚ
deriving DecidableEq

/-- Spec-level model of Python's `round(x, 4)`.  (Python rounds ties to even
on binary floats; no verified property depends on tie behaviour.) -/
def round4 (q : ℚ) : ℚ := ((round (q * 10000) : ℤ) : ℚ) / 10000

/-- The per-epoch loss of the source loop: `total_loss` starts at `0`, each
batch adds `loss.item()`, and the epoch loss is
`total_loss / len(dataloader)`. -/
def epochLoss (losses : List ℚ) : ℚ :=
  (losses.foldl (fun total l => total + l) 0) / losses.length

/-- The epoch loop of `IC50BertTrainer.train` (src/train.py, package
variant).  The model, criterion and optimizer are external collaborators:
each epoch's per-batch training losses are abstracted as `tl epoch`, the
optional validation loader's per-batch losses as `f epoch`.  `stop_loss`
defaults to the train epoch loss and is overwritten by the validation epoch
loss when `if self.val_dataloader:` is truthy (a loader of nonzero length);
each epoch records the rounded train loss (and validation loss when the
validation pass ran), then the monitor is queried and the loop breaks on
STOP.  `fuel` is the number of remaining epochs, `epoch` the current index. -/
def trainFrom (tl : ℕ → List ℚ) (vl : Option (ℕ → List ℚ)) :
    EarlyStopper → ℕ → ℕ → TrainResult
  | _, _, 0 => ⟨[], []⟩
  | es, epoch, fuel + 1 =>
    let train_episode_loss := epochLoss (tl epoch)
    let val_episode_loss : Option ℚ :=
      match vl with
      | some f => if (f epoch).length ≠ 0 then some (epochLoss (f epoch)) else none
      | none => none
    let stop_loss :=
      match val_episode_loss with
      | some v => v
      | none => train_episode_loss
    let r := es.early_stop (.val stop_loss)
    let valRec :=
      match val_episode_loss with
      | some v => [round4 v]
      | none => []
    if r.2 then ⟨[round4 train_episode_loss], valRec⟩
    else
      let rest := trainFrom tl vl r.1 (epoch + 1) fuel
      ⟨round4 train_episode_loss :: rest.trainLosses, valRec ++ rest.valLosses⟩

/-- The scalar handed to the Early-Stop Monitor at epoch `e` of the loop:
the validation epoch loss when a (nonzero-length, hence truthy) validation
loader is configured, otherwise the train epoch loss. -/
def fedSeq (tl : ℕ → List ℚ) (vl : Option (ℕ → List ℚ)) (e : ℕ) : FVal :=
  .val (match vl with
    | some f => if (f e).length ≠ 0 then epochLoss (f e) else epochLoss (tl e)
    | none => epochLoss (tl e))

/-- Follows the spec's words (§4.4 steps 3–5): the per-epoch train loss is
`accumulated_loss / number_of_batches` written as `sum / length`; the value
fed to the Early-Stop Monitor is the mean validation loss when a validation
batch source is configured (one that yields at least one batch — a
zero-length loader is falsy in the Python `if self.val_dataloader:` guard
and behaves as unconfigured), otherwise the mean training loss. -/
def trainFromSpec (tl : ℕ → List ℚ) (vl : Option (ℕ → List ℚ)) :
    EarlyStopper → ℕ → ℕ → TrainResult
  | _, _, 0 => ⟨[], []⟩
  | es, e, fuel + 1 =>
    let trainMean := (tl e).sum / (tl e).length
    let valMean : Option ℚ :=
      match vl with
      | some f => if (f e).length ≠ 0 then some ((f e).sum / (f e).length) else none
      | none => none
    let fed := match valMean with | some v => v | none => trainMean
    let r := es.early_stop (.val fed)
    let valRec := match valMean with | some v => [round4 v] | none => []
    if r.2 then ⟨[round4 trainMean], valRec⟩
    else
      let rest := trainFromSpec tl vl r.1 (e + 1) fuel
      ⟨round4 trainMean :: rest.trainLosses, valRec ++ rest.valLosses⟩

/-- The two devices the configuration chooses between. -/
inductive Device : Type
  | cpu : Device
  | cuda : Device
deriving DecidableEq

/-- The host environment: whether a CUDA accelerator is present. -/
structure TorchEnv where
  cuda_available : Bool
deriving DecidableEq

/-- Error class of the training core. -/
inductive TrainError : Type
  | deviceError : TrainError
deriving DecidableEq

/-- Modelled from the spec (§5, §7): moving a module to a device
(`Module.to(device)`, a torch collaborator absent from src/) fails
immediately when the requested accelerator is unavailable. -/
def moveToDevice (env : TorchEnv) (d : Device) : Except TrainError Unit :=
  if d = .cuda ∧ env.cuda_available = false then .error .deviceError
  else .ok ()

/-- The fields of `IC50BertTrainer` (src/train.py, package variant) that the
control flow reads; model, loaders, criterion and optimizer are external
collaborators abstracted into the loss inputs of `train`. -/
structure IC50BertTrainer where
  num_epochs : ℕ
  device : Device
  early_stopper : EarlyStopper
deriving DecidableEq

/-- `IC50BertTrainer.__init__`: stores the configuration and creates
`EarlyStopper(patience=10, min_delta=0.05)`.  No device check is
performed. -/
def IC50BertTrainer.init (num_epochs : ℕ) (device : Device) : IC50BertTrainer :=
  ⟨num_epochs, device, EarlyStopper.init 10 (5/100)⟩

/-- `IC50BertTrainer.train`: `self.model.to(self.device)` and
`self.criterion.to(self.device)` run first (this is where an unavailable
device surfaces), then the epoch loop. -/
def IC50BertTrainer.train (t : IC50BertTrainer) (env : TorchEnv)
    (tl : ℕ → List ℚ) (vl : Option (ℕ → List ℚ)) :
    Except TrainError TrainResult := do
  _ ← moveToDevice env t.device
  _ ← moveToDevice env t.device
  pure (trainFrom tl vl t.early_stopper 0 t.num_epochs)

/-- Follows the spec's words (§7): "DeviceError: requested accelerator
unavailable — fatal at orchestrator construction, before any epoch runs". -/
def initSpecDeviceCheck (env : TorchEnv) (num_epochs : ℕ) (device : Device) :
    Except TrainError IC50BertTrainer :=
  if device = .cuda ∧ env.cuda_available = false then .error .deviceError
  else .ok (IC50BertTrainer.init num_epochs device)

/-- Device selection inside `train` of the legacy trainer (root
`train.py`): `torch.device("cuda" if torch.cuda.is_available() else
"cpu")` — a silent CPU fallback, not an error. -/
def legacyTrainDevice (env : TorchEnv) : Device :=
  if env.cuda_available then .cuda else .cpu

/-- A dynamically-typed table cell: a string or a number.  Python enforces
no types here; cells read from the table pass through unchanged. -/
inductive Cell : Type
  | str : String → Cell
  | num : ℚ → Cell
deriving DecidableEq

/-- `ProteinData` (dataset.py): the NamedTuple `(ligand, protein, ic50)`.
Its annotations (`str, str, int`) are not enforced at runtime, so the
fields are `Cell`-valued. -/
structure ProteinData where
  ligand : Cell
  protein : Cell
  ic50 : Cell
deriving DecidableEq

/-- Error classes of Record Projection: pandas raises `IndexError` for an
out-of-range positional index and `KeyError` — the spec's SchemaError
class — for an absent column name. -/
inductive DataError : Type
  | indexError : DataError
  | schemaError : String → DataError
deriving DecidableEq

/-- Modelled from the spec (§4.1, §6): the pandas DataFrame collaborator
(absent from src/) — an ordered table whose rows associate column names to
cells. -/
structure DataFrame where
  rows : List (List (String × Cell))
deriving DecidableEq

/-- Modelled from the spec (§4.1): `df.iloc[idx]` — positional row access,
an IndexError-class failure for an index outside `[0, N)`. -/
def DataFrame.iloc (df : DataFrame) (idx : ℕ) :
    Except DataError (List (String × Cell)) :=
  match df.rows.get? idx with
  | some row => .ok row
  | none => .error .indexError

/-- Modelled from the spec (§4.1): `row[name]` — cell lookup bound by
column name, a SchemaError-class failure when the name is absent. -/
def rowGet (row : List (String × Cell)) (name : String) :
    Except DataError Cell :=
  match row.find? (fun c => c.1 == name) with
  | some c => .ok c.2
  | none => .error (.schemaError name)

/-- `ProteinSMILESDataset.__len__`: the row count of the backing table. -/
def ProteinSMILESDataset.len (df : DataFrame) : ℕ := df.rows.length

/-- `ProteinSMILESDataset.__getitem__`: `row = df.iloc[idx]`, then the
three fields extracted by column name, then `ProteinData` construction.
A pure lookup: no state is read or written besides the arguments. -/
def ProteinSMILESDataset.getitem (df : DataFrame) (idx : ℕ) :
    Except DataError ProteinData := do
  let row ← df.iloc idx
  let ligand ← rowGet row "Ligand SMILES"
  let protein ← rowGet row "BindingDB Target Chain Sequence"
  let target_ic50 ← rowGet row "IC50 (nM)"
  return ⟨ligand, protein, target_ic50⟩

/-- The tokenization error class of the spec (§7): the tokenizer resource
cannot be loaded. -/
inductive TokenizationError : Type
  | unloadable : String → TokenizationError
deriving DecidableEq

/-- Modelled from the spec (§6): the tokenizer collaborator (absent from
src/) — joint two-sequence tokenization producing, per record, the token
sequence of the pair, each token carrying an input id and a segment
(token-type) id, already truncated to the tokenizer's maximum supported
length; plus the reserved pad token id. -/
structure Tokenizer where
  encode : Cell → Cell → List (ℕ × ℕ)
  padId : ℕ

/-- The batch mapping produced by collation: keys `input_ids`,
`token_type_ids`, `attention_mask` from the tokenizer plus the attached
`labels`. -/
structure Batch where
  input_ids : List (List ℕ)
  token_type_ids : List (List ℕ)
  attention_mask : List (List Bool)
  labels : List Cell
deriving DecidableEq

/-- Right-pad a token-id row to length `n` with pad id `p`. -/
def padTo (n : ℕ) (p : ℕ) (l : List ℕ) : List ℕ :=
  l ++ List.replicate (n - l.length) p

/-- Attention mask of a row of `len` real tokens padded to length `n`:
true on real positions, false on padded ones. -/
def maskTo (n : ℕ) (len : ℕ) : List Bool :=
  List.replicate len true ++ List.replicate (n - len) false

/-- Modelled from the spec (§4.2 step 2, §6): the tokenizer called as
`tokenizer(ligands, proteins, padding=True, truncation=True,
return_tensors="pt")`: encodes each ligand/protein pair and pads every
example to the maximum token length within the batch, marking padded
positions as excluded in the attention mask.  `labels` is attached later by
the collate wrapper. -/
def Tokenizer.call (tok : Tokenizer) (ligands proteins : List Cell) : Batch :=
  let encs := List.zipWith tok.encode ligands proteins
  let maxLen := encs.foldl (fun m enc => max m enc.length) 0
  { input_ids := encs.map (fun enc => padTo maxLen tok.padId (enc.map Prod.fst))
    token_type_ids := encs.map (fun enc => padTo maxLen 0 (enc.map Prod.snd))
    attention_mask := encs.map (fun enc => maskTo maxLen enc.length)
    labels := [] }

/-- `TransformerCollate`: holds the tokenizer loaded at construction. -/
structure TransformerCollate where
  tokenizer : Tokenizer

/-- `TransformerCollate.__init__`: eagerly loads the tokenizer resource
(`AutoTokenizer.from_pretrained(path)`) and stores it, so an
unloadable-resource failure surfaces here, at construction time. -/
def TransformerCollate.init (load : String → Except TokenizationError Tokenizer)
    (path : String) : Except TokenizationError TransformerCollate := do
  let tokenizer ← load path
  return ⟨tokenizer⟩

/-- `TransformerCollate.__call__`: splits the records into ligands,
proteins and targets, tokenizes jointly, and attaches `labels` built from
the target values in input order.  No validation of the input strings is
performed. -/
def TransformerCollate.call (c : TransformerCollate)
    (batches : List ProteinData) : Batch :=
  let ligands := batches.map (fun item => item.ligand)
  let proteins := batches.map (fun item => item.protein)
  let target_ic50 := batches.map (fun item => item.ic50)
  let encodings := c.tokenizer.call ligands proteins
  { encodings with labels := target_ic50 }

/-- A cell that is a string and empty after stripping whitespace
(equivalently: every character is whitespace). -/
def isBlank : Cell → Bool
  | .str s => s.data.all (fun c => c.isWhitespace)
  | .num _ => false

/-- Follows the spec's words (§4.2 Error): collation should fail with a
TokenizationError when some record's ligand or protein string is empty
after stripping — this predicate marks the batches the spec says must be
rejected. -/
def collateSpecRejects (batches : List ProteinData) : Bool :=
  batches.any (fun r => isBlank r.ligand || isBlank r.protein)

/-- A concrete deterministic tokenizer stub that accepts every input,
including empty strings (the common behaviour of real tokenizers). -/
def tokStub : Tokenizer :=
  ⟨fun _ _ => [(1, 0), (2, 1)], 0⟩

lemma flt_nan_left (a : FVal) : flt .nan a = false := by cases a <;> rfl

lemma flt_nan_right (a : FVal) : flt a .nan = false := by cases a <;> rfl

lemma flt_trans {a b c : FVal} (h1 : flt a b = true) (h2 : flt b c = true) :
    flt a c = true := by
  cases a <;> cases b <;> cases c <;> simp_all [flt]
  exact lt_trans h1 h2

lemma fle_trans {a b c : FVal} (h1 : fle a b = true) (h2 : fle b c = true) :
    fle a c = true := by
  simp only [fle, Bool.or_eq_true, decide_eq_true_eq] at *
  rcases h1 with h1 | h1 <;> rcases h2 with h2 | h2
  · left; rw [h1, h2]
  · right; rw [h1]; exact h2
  · right; rw [← h2]; exact h1
  · right; exact flt_trans h1 h2

lemma early_stop_min_fle (s : EarlyStopper) (v : FVal) :
    fle ((s.early_stop v).1).min_validation_loss s.min_validation_loss = true := by
  by_cases h1 : flt v s.min_validation_loss
  · simp [EarlyStopper.early_stop, h1, fle]
  · by_cases h2 : flt (fadd s.min_validation_loss s.min_delta) v <;>
      simp [EarlyStopper.early_stop, h1, h2, fle]

lemma stateAfter_min_fle (s : EarlyStopper) (vs : List FVal) :
    fle (stateAfter s vs).min_validation_loss s.min_validation_loss = true := by
  induction vs generalizing s with
  | nil => simp [stateAfter, fle]
  | cons v vs ih =>
    have h1 := early_stop_min_fle s v
    have h2 := ih ((s.early_stop v).1)
    simpa [stateAfter] using fle_trans h2 h1

/-- C1: `early_stop` performs the specified transition: strict improvement
resets the state and never stops; a regression beyond `min_delta` increments
the counter and stops exactly when the new counter reaches `patience`;
anything else leaves the state unchanged and never stops.  Concretely, with
`patience = 2, min_delta = 0`, feeding `[5.0, 4.0, 4.06, 4.2]` gives
`counter = 1` after 4.06, `counter = 2` after 4.2, and STOP on the 4th
value (and not on the 3rd). -/
theorem earlyStop_transition_spec :
    (∀ (s : EarlyStopper) (v : FVal),
      (flt v s.min_validation_loss = true →
        s.early_stop v = ({ s with min_validation_loss := v, counter := 0 }, false)) ∧
      (flt v s.min_validation_loss = false →
        flt (fadd s.min_validation_loss s.min_delta) v = true →
        s.early_stop v =
          ({ s with counter := s.counter + 1 }, decide (s.patience ≤ s.counter + 1))) ∧
      (flt v s.min_validation_loss = false →
        flt (fadd s.min_validation_loss s.min_delta) v = false →
        s.early_stop v = (s, false))) ∧
    (stateAfter (.init 2 0) [.val 5, .val 4, .val (406/100)]).counter = 1 ∧
    (stateAfter (.init 2 0)
      [.val 5, .val 4, .val (406/100), .val (42/10)]).counter = 2 ∧
    ((stateAfter (.init 2 0) [.val 5, .val 4, .val (406/100)]).early_stop
      (.val (42/10))).2 = true ∧
    ((stateAfter (.init 2 0) [.val 5, .val 4]).early_stop (.val (406/100))).2
      = false := by
  refine ⟨fun s v => ⟨?_, ?_, ?_⟩, ?_, ?_, ?_, ?_⟩
  · intro h1; simp [EarlyStopper.early_stop, h1]
  · intro h1 h2; simp [EarlyStopper.early_stop, h1, h2]
  · intro h1 h2; simp [EarlyStopper.early_stop, h1, h2]
  all_goals
    norm_num [stateAfter, EarlyStopper.early_stop, EarlyStopper.init, flt, fadd]

/-- Witness for C1: the three transition cases applied at concrete states. -/
theorem earlyStop_transition_spec_witness :
    (⟨2, 0, 5, .inf⟩ : EarlyStopper).early_stop (.val 3)
      = (⟨2, 0, 0, .val 3⟩, false) ∧
    (⟨2, 0, 0, .val 3⟩ : EarlyStopper).early_stop (.val 4)
      = (⟨2, 0, 1, .val 3⟩, false) ∧
    (⟨2, 0, 0, .val 3⟩ : EarlyStopper).early_stop (.val 3)
      = (⟨2, 0, 0, .val 3⟩, false) := by
  refine ⟨?_, ?_, ?_⟩
  · exact (earlyStop_transition_spec.1 ⟨2, 0, 5, .inf⟩ (.val 3)).1 rfl
  · have h := (earlyStop_transition_spec.1 ⟨2, 0, 0, .val 3⟩ (.val 4)).2.1
      (by norm_num [flt]) (by norm_num [flt, fadd])
    simpa using h
  · exact (earlyStop_transition_spec.1 ⟨2, 0, 0, .val 3⟩ (.val 3)).2.2
      (by norm_num [flt]) (by norm_num [flt, fadd])

/-- C8 counterexample: a first observed loss of NaN does not improve —
`min_validation_loss` stays `+infinity` instead of becoming the observed
value, refuting "the first observed loss always improves: best_loss becomes
v" for `v = NaN`. -/
theorem earlyStop_first_value_nan_cex :
    ¬ (((EarlyStopper.init 1 0).early_stop FVal.nan).1.min_validation_loss
        = FVal.nan) := by
  simp [EarlyStopper.early_stop, EarlyStopper.init, flt, fadd]

/-- C8 amended: from the initial state (`best_loss = +infinity`,
`stale_count = 0`), no first observed loss value ever triggers STOP, and
every *finite* first observed loss improves: `best_loss` becomes `v` and the
counter is (re)set to 0.  (A NaN or `+infinity` first value leaves the state
unchanged instead of improving.) -/
theorem earlyStop_first_value_amended :
    (∀ (p : ℕ) (d : ℚ) (v : FVal),
      ((EarlyStopper.init p d).early_stop v).2 = false) ∧
    (∀ (p : ℕ) (d : ℚ) (q : ℚ),
      (EarlyStopper.init p d).early_stop (.val q) = (⟨p, d, 0, .val q⟩, false)) := by
  constructor
  · intro p d v
    cases v <;> simp [EarlyStopper.early_stop, EarlyStopper.init, flt, fadd]
  · intro p d q
    simp [EarlyStopper.early_stop, EarlyStopper.init, flt]

/-- C9: invariants of the monitor: (1) `min_validation_loss` is
non-increasing across any sequence of `early_stop` calls; (2) a call whose
argument strictly improves on the best loss leaves `counter = 0`; (3) a call
that returns `True` does so with the updated `counter ≥ patience`. -/
theorem earlyStopper_invariants :
    (∀ (s : EarlyStopper) (vs : List FVal),
      fle (stateAfter s vs).min_validation_loss s.min_validation_loss = true) ∧
    (∀ (s : EarlyStopper) (v : FVal),
      flt v s.min_validation_loss = true →
      ((s.early_stop v).1).counter = 0) ∧
    (∀ (s : EarlyStopper) (v : FVal),
      (s.early_stop v).2 = true →
      s.patience ≤ ((s.early_stop v).1).counter) := by
  refine ⟨stateAfter_min_fle, ?_, ?_⟩
  · intro s v h1; simp [EarlyStopper.early_stop, h1]
  · intro s v h
    by_cases h1 : flt v s.min_validation_loss
    · simp [EarlyStopper.early_stop, h1] at h
    · by_cases h2 : flt (fadd s.min_validation_loss s.min_delta) v
      · simp only [EarlyStopper.early_stop, h1, h2] at h ⊢
        simpa using h
      · simp [EarlyStopper.early_stop, h1, h2] at h

/-- Witness for C9: the invariants applied at concrete states. -/
theorem earlyStopper_invariants_witness :
    ((( ⟨1, 0, 5, FVal.inf⟩ : EarlyStopper).early_stop (.val 3)).1).counter = 0 ∧
    (⟨2, 0, 1, FVal.val 4⟩ : EarlyStopper).patience ≤
      (((⟨2, 0, 1, FVal.val 4⟩ : EarlyStopper).early_stop (.val 7)).1).counter := by
  constructor
  · exact earlyStopper_invariants.2.1 ⟨1, 0, 5, FVal.inf⟩ (.val 3) rfl
  · exact earlyStopper_invariants.2.2 ⟨2, 0, 1, FVal.val 4⟩ (.val 7)
      (by norm_num [EarlyStopper.early_stop, flt, fadd])

/-- C10: feeding NaN to `early_stop` returns `False` and leaves the state
unchanged (both IEEE comparisons against NaN are false), so a run whose
monitored loss is NaN from some point on is never stopped by the monitor. -/
theorem earlyStop_nan_noop :
    (∀ s : EarlyStopper, s.early_stop .nan = (s, false)) ∧
    (∀ (s : EarlyStopper) (e n : ℕ), firstStop (fun _ => .nan) s e n = none) := by
  have h : ∀ s : EarlyStopper, s.early_stop .nan = (s, false) := by
    intro s
    simp [EarlyStopper.early_stop, flt_nan_left, flt_nan_right]
  refine ⟨h, ?_⟩
  intro s e n
  induction n generalizing s e with
  | zero => rfl
  | succ n ih => simp [firstStop, h, ih]

lemma firstStop_ge {g : ℕ → FVal} :
    ∀ {n e k : ℕ} {s : EarlyStopper}, firstStop g s e n = some k → e ≤ k := by
  intro n
  induction n with
  | zero => intro e k s h; simp [firstStop] at h
  | succ n ih =>
    intro e k s h
    simp only [firstStop] at h
    split at h
    · have : e = k := by simpa using h
      omega
    · have := ih h
      omega

lemma trainFrom_train_len (tl : ℕ → List ℚ) (vl : Option (ℕ → List ℚ)) :
    ∀ (n e : ℕ) (s : EarlyStopper),
      (trainFrom tl vl s e n).trainLosses.length =
        match firstStop (fedSeq tl vl) s e n with
        | none => n
        | some k => k + 1 - e := by
  intro n
  induction n with
  | zero => intro e s; rfl
  | succ n ih =>
    intro e s
    rcases vl with _ | f
    · simp only [trainFrom, firstStop, fedSeq]
      by_cases hb : (s.early_stop (.val (epochLoss (tl e)))).2
      · simp [hb]
      · simp only [hb, if_false, Bool.false_eq_true]
        rcases h' : firstStop (fedSeq tl none)
            ((s.early_stop (.val (epochLoss (tl e)))).1) (e + 1) n with _ | k
        · have := ih (e + 1) ((s.early_stop (.val (epochLoss (tl e)))).1)
          rw [h'] at this
          simp [fedSeq] at this ⊢
          omega
        · have := ih (e + 1) ((s.early_stop (.val (epochLoss (tl e)))).1)
          rw [h'] at this
          have hk := firstStop_ge h'
          simp [fedSeq] at this ⊢
          rw [this]
          exact (Nat.succ_sub (Nat.le_of_succ_le hk)).symm
    · by_cases hf : (f e).length = 0
      · simp only [trainFrom, firstStop, fedSeq, hf, ne_eq, not_true_eq_false,
          if_false, reduceIte]
        by_cases hb : (s.early_stop (.val (epochLoss (tl e)))).2
        · simp [hb]
        · simp only [hb, if_false, Bool.false_eq_true]
          rcases h' : firstStop (fedSeq tl (some f))
              ((s.early_stop (.val (epochLoss (tl e)))).1) (e + 1) n with _ | k
          · have := ih (e + 1) ((s.early_stop (.val (epochLoss (tl e)))).1)
            rw [h'] at this
            simp at this ⊢
            omega
          · have := ih (e + 1) ((s.early_stop (.val (epochLoss (tl e)))).1)
            rw [h'] at this
            have hk := firstStop_ge h'
            simp at this ⊢
            rw [this]
            exact (Nat.succ_sub (Nat.le_of_succ_le hk)).symm
      · simp only [trainFrom, firstStop, fedSeq, hf, ne_eq, not_false_eq_true,
          if_true, reduceIte]
        by_cases hb : (s.early_stop (.val (epochLoss (f e)))).2
        · simp [hb]
        · simp only [hb, if_false, Bool.false_eq_true]
          rcases h' : firstStop (fedSeq tl (some f))
              ((s.early_stop (.val (epochLoss (f e)))).1) (e + 1) n with _ | k
          · have := ih (e + 1) ((s.early_stop (.val (epochLoss (f e)))).1)
            rw [h'] at this
            simp at this ⊢
            omega
          · have := ih (e + 1) ((s.early_stop (.val (epochLoss (f e)))).1)
            rw [h'] at this
            have hk := firstStop_ge h'
            simp at this ⊢
            rw [this]
            exact (Nat.succ_sub (Nat.le_of_succ_le hk)).symm

lemma trainFrom_none_valLosses (tl : ℕ → List ℚ) :
    ∀ (n e : ℕ) (s : EarlyStopper), (trainFrom tl none s e n).valLosses = [] := by
  intro n
  induction n with
  | zero => intro e s; rfl
  | succ n ih =>
    intro e s
    simp only [trainFrom]
    split <;> simp [ih]

lemma trainFrom_val_len (tl f : ℕ → List ℚ) (hf : ∀ e, (f e).length ≠ 0) :
    ∀ (n e : ℕ) (s : EarlyStopper),
      (trainFrom tl (some f) s e n).valLosses.length =
        (trainFrom tl (some f) s e n).trainLosses.length := by
  intro n
  induction n with
  | zero => intro e s; rfl
  | succ n ih =>
    intro e s
    simp only [trainFrom, hf e, ne_eq, not_false_eq_true, if_true, reduceIte]
    split <;> simp [ih]

/-- C2: the loop records exactly one training-loss entry per completed
epoch.  Starting at epoch 0 with `n = num_epochs`: when the monitor never
signals STOP on the fed sequence, the result has exactly `n` training
entries (no validation entries without a validation source; exactly `n`
validation entries with one); when the monitor first signals at 0-based
index `k` (i.e. at epoch `k + 1`, after that epoch completed), the loop
breaks after recording that epoch, leaving exactly `k + 1` entries of each
recorded kind. -/
theorem train_records_per_epoch :
    ∀ (tl f : ℕ → List ℚ) (es : EarlyStopper) (n : ℕ),
      (firstStop (fedSeq tl none) es 0 n = none →
        (trainFrom tl none es 0 n).trainLosses.length = n ∧
        (trainFrom tl none es 0 n).valLosses = []) ∧
      (∀ k, firstStop (fedSeq tl none) es 0 n = some k →
        (trainFrom tl none es 0 n).trainLosses.length = k + 1) ∧
      ((∀ e, (f e).length ≠ 0) →
        (firstStop (fedSeq tl (some f)) es 0 n = none →
          (trainFrom tl (some f) es 0 n).trainLosses.length = n ∧
          (trainFrom tl (some f) es 0 n).valLosses.length = n) ∧
        (∀ k, firstStop (fedSeq tl (some f)) es 0 n = some k →
          (trainFrom tl (some f) es 0 n).trainLosses.length = k + 1 ∧
          (trainFrom tl (some f) es 0 n).valLosses.length = k + 1)) := by
  intro tl f es n
  refine ⟨?_, ?_, ?_⟩
  · intro h
    have h1 := trainFrom_train_len tl none n 0 es
    rw [h] at h1
    exact ⟨h1, trainFrom_none_valLosses tl n 0 es⟩
  · intro k h
    have h1 := trainFrom_train_len tl none n 0 es
    rw [h] at h1
    simpa using h1
  · intro hf
    constructor
    · intro h
      have h1 := trainFrom_train_len tl (some f) n 0 es
      rw [h] at h1
      exact ⟨h1, (trainFrom_val_len tl f hf n 0 es).trans h1⟩
    · intro k h
      have h1 := trainFrom_train_len tl (some f) n 0 es
      rw [h] at h1
      have h2 := (trainFrom_val_len tl f hf n 0 es).trans h1
      simp at h1 h2
      exact ⟨h1, h2⟩

/-- Witness for C2: a run with `patience = 1` on losses `1, 2, 3, ...`
stops at 0-based epoch index 1 and records 2 entries; a 3-epoch run with
`patience = 10, min_delta = 0.05` on constant losses never stops and
records 3 train and 3 validation entries. -/
theorem train_records_per_epoch_witness :
    (trainFrom (fun e => [(e : ℚ) + 1]) none ⟨1, 0, 0, .inf⟩ 0 5).trainLosses.length
      = 2 ∧
    (trainFrom (fun _ => [1]) (some fun _ => [2])
        (EarlyStopper.init 10 (5/100)) 0 3).trainLosses.length = 3 ∧
    (trainFrom (fun _ => [1]) (some fun _ => [2])
        (EarlyStopper.init 10 (5/100)) 0 3).valLosses.length = 3 := by
  have h1 : firstStop (fedSeq (fun e => [(e : ℚ) + 1]) none) ⟨1, 0, 0, .inf⟩ 0 5
      = some 1 := by
    norm_num [firstStop, fedSeq, epochLoss, EarlyStopper.early_stop, flt, fadd]
  have h2 : firstStop (fedSeq (fun _ => [(1 : ℚ)]) (some fun _ => [(2 : ℚ)]))
      (EarlyStopper.init 10 (5/100)) 0 3 = none := by
    norm_num [firstStop, fedSeq, epochLoss, EarlyStopper.early_stop,
      EarlyStopper.init, flt, fadd]
  refine ⟨?_, ?_, ?_⟩
  · exact (train_records_per_epoch (fun e => [(e : ℚ) + 1]) (fun _ => [])
      ⟨1, 0, 0, .inf⟩ 5).2.1 1 h1
  · exact (((train_records_per_epoch (fun _ => [1]) (fun _ => [2])
      (EarlyStopper.init 10 (5/100)) 3).2.2 (fun e => by simp)).1 h2).1
  · exact (((train_records_per_epoch (fun _ => [1]) (fun _ => [2])
      (EarlyStopper.init 10 (5/100)) 3).2.2 (fun e => by simp)).1 h2).2

lemma foldl_add_from (l : List ℚ) : ∀ a : ℚ, l.foldl (fun total x => total + x) a = a + l.sum := by
  induction l with
  | nil => intro a; simp
  | cons x xs ih =>
    intro a
    simp only [List.foldl_cons, List.sum_cons, ih]
    ring

lemma epochLoss_eq_sum_div (l : List ℚ) : epochLoss l = l.sum / l.length := by
  simp [epochLoss, foldl_add_from]

lemma trainFrom_eq_spec (tl : ℕ → List ℚ) (vl : Option (ℕ → List ℚ)) :
    ∀ (n e : ℕ) (s : EarlyStopper),
      trainFrom tl vl s e n = trainFromSpec tl vl s e n := by
  intro n
  induction n with
  | zero => intro e s; rfl
  | succ n ih =>
    intro e s
    rcases vl with _ | f
    · simp only [trainFrom, trainFromSpec, epochLoss_eq_sum_div]
      split <;> simp [ih]
    · by_cases h: (f e).length = 0
      · simp only [trainFrom, trainFromSpec, epochLoss_eq_sum_div, h, ne_eq,
          not_true_eq_false, if_false, reduceIte]
        split <;> simp [ih]
      · simp only [trainFrom, trainFromSpec, epochLoss_eq_sum_div, h, ne_eq,
          not_false_eq_true, if_true, reduceIte]
        split <;> simp [ih]

/-- C3: the epoch loop is exactly its specification-level description: the
per-epoch train loss is the accumulated per-batch loss divided by the number
of batches (`sum / length`), and the scalar fed to the Early-Stop Monitor is
the mean validation loss when a validation batch source is configured,
otherwise the mean training loss (`trainFrom = trainFromSpec`, plus the
explicit characterisation of the fed scalar `fedSeq`). -/
theorem train_feeds_mean_loss :
    (∀ l : List ℚ, epochLoss l = l.sum / l.length) ∧
    (∀ (tl : ℕ → List ℚ) (vl : Option (ℕ → List ℚ)) (n e : ℕ) (s : EarlyStopper),
      trainFrom tl vl s e n = trainFromSpec tl vl s e n) ∧
    (∀ (tl f : ℕ → List ℚ) (e : ℕ), (f e).length ≠ 0 →
      fedSeq tl (some f) e = .val ((f e).sum / (f e).length)) ∧
    (∀ (tl : ℕ → List ℚ) (e : ℕ),
      fedSeq tl none e = .val ((tl e).sum / (tl e).length)) := by
  refine ⟨epochLoss_eq_sum_div, trainFrom_eq_spec, ?_, ?_⟩
  · intro tl f e hf
    simp [fedSeq, hf, epochLoss_eq_sum_div]
  · intro tl e
    simp [fedSeq, epochLoss_eq_sum_div]

/-- Witness for C3: the fed-scalar characterisation applied at a concrete
validation source. -/
theorem train_feeds_mean_loss_witness :
    fedSeq (fun _ => [(1 : ℚ)]) (some fun _ => [(2 : ℚ), (4 : ℚ)]) 0
      = .val (([(2 : ℚ), (4 : ℚ)].sum) / ([(2 : ℚ), (4 : ℚ)].length)) := by
  exact train_feeds_mean_loss.2.2.1 (fun _ => [(1 : ℚ)])
    (fun _ => [(2 : ℚ), (4 : ℚ)]) 0 (by simp)

/-- C7 counterexample: with CUDA unavailable, constructing the trainer with
`device = cuda` succeeds (the constructor performs no device check and just
stores its fields), the failure only surfaces inside `train` when the model
is moved to the device, and the legacy trainer silently selects CPU instead
of failing — all contradicting "fails with a DeviceError-class condition at
construction time ... never handled by silent fallback", whose
construction-time check `initSpecDeviceCheck` rejects the same input. -/
theorem device_check_not_at_construction_cex :
    initSpecDeviceCheck ⟨false⟩ 3 .cuda = .error .deviceError ∧
    IC50BertTrainer.init 3 .cuda = ⟨3, .cuda, EarlyStopper.init 10 (5/100)⟩ ∧
    (IC50BertTrainer.init 3 .cuda).train ⟨false⟩ (fun _ => [1]) none
      = .error .deviceError ∧
    legacyTrainDevice ⟨false⟩ = .cpu := by
  refine ⟨?_, rfl, ?_, rfl⟩
  · simp [initSpecDeviceCheck]
  · simp [IC50BertTrainer.train, IC50BertTrainer.init, moveToDevice, Bind.bind,
      Except.bind]

/-- C7 amended: construction never fails and performs no device check; when
the requested accelerator is unavailable, the package-variant trainer fails
with the DeviceError-class condition at the start of `train` (when moving
the model to the device), before any epoch runs; the legacy trainer instead
silently falls back to CPU inside `train`. -/
theorem device_error_at_train_amended :
    (∀ (n : ℕ) (d : Device),
      IC50BertTrainer.init n d = ⟨n, d, EarlyStopper.init 10 (5/100)⟩) ∧
    (∀ (env : TorchEnv) (t : IC50BertTrainer) (tl : ℕ → List ℚ)
        (vl : Option (ℕ → List ℚ)),
      t.device = .cuda → env.cuda_available = false →
      t.train env tl vl = .error .deviceError) ∧
    (∀ env : TorchEnv, env.cuda_available = false →
      legacyTrainDevice env = .cpu) := by
  refine ⟨fun n d => rfl, ?_, ?_⟩
  · intro env t tl vl h1 h2
    simp [IC50BertTrainer.train, moveToDevice, h1, h2, Bind.bind, Except.bind]
  · intro env h
    simp [legacyTrainDevice, h]

/-- Witness for C7 (amended): the deferred failure and the legacy fallback
at a concrete unavailable-CUDA environment. -/
theorem device_error_at_train_amended_witness :
    (IC50BertTrainer.init 2 .cuda).train ⟨false⟩ (fun _ => [1]) none
      = .error .deviceError ∧
    legacyTrainDevice ⟨false⟩ = .cpu := by
  constructor
  · exact device_error_at_train_amended.2.1 ⟨false⟩ (IC50BertTrainer.init 2 .cuda)
      (fun _ => [1]) none rfl rfl
  · exact device_error_at_train_amended.2.2 ⟨false⟩ rfl

lemma foldl_max_init_le (l : List (List (ℕ × ℕ))) :
    ∀ a : ℕ, a ≤ l.foldl (fun m enc => max m enc.length) a := by
  induction l with
  | nil => intro a; simp
  | cons y ys ih =>
    intro a
    simp only [List.foldl_cons]
    exact le_trans (le_max_left a y.length) (ih (max a y.length))

lemma mem_le_foldl_max (l : List (List (ℕ × ℕ))) :
    ∀ (a : ℕ) (x : List (ℕ × ℕ)), x ∈ l →
      x.length ≤ l.foldl (fun m enc => max m enc.length) a := by
  induction l with
  | nil => intro a x hx; simp at hx
  | cons y ys ih =>
    intro a x hx
    simp only [List.foldl_cons]
    rcases List.mem_cons.mp hx with h | h
    · subst h
      exact le_trans (le_max_right a x.length) (foldl_max_init_le ys (max a x.length))
    · exact ih (max a y.length) x h

lemma padTo_length {n : ℕ} (p : ℕ) (l : List ℕ) (h : l.length ≤ n) :
    (padTo n p l).length = n := by
  simp [padTo, Nat.add_sub_cancel' h]

lemma maskTo_length {n len : ℕ} (h : len ≤ n) : (maskTo n len).length = n := by
  simp [maskTo, Nat.add_sub_cancel' h]

lemma map_eq_replicate_of_forall {α : Type} (f : α → ℕ) (l : List α) (k : ℕ)
    (h : ∀ x ∈ l, f x = k) : l.map f = List.replicate l.length k := by
  induction l with
  | nil => rfl
  | cons y ys ih =>
    simp only [List.map_cons, List.length_cons, List.replicate_succ,
      List.cons.injEq]
    exact ⟨h y (List.mem_cons_self y ys),
      ih fun x hx => h x (List.mem_cons_of_mem y hx)⟩

lemma tokenizer_call_rect (tok : Tokenizer) (ligands proteins : List Cell) :
    ∃ L, (tok.call ligands proteins).input_ids.map List.length
          = List.replicate (min ligands.length proteins.length) L ∧
        (tok.call ligands proteins).token_type_ids.map List.length
          = List.replicate (min ligands.length proteins.length) L ∧
        (tok.call ligands proteins).attention_mask.map List.length
          = List.replicate (min ligands.length proteins.length) L := by
  simp only [Tokenizer.call]
  refine ⟨(List.zipWith tok.encode ligands proteins).foldl
      (fun m enc => max m enc.length) 0, ?_, ?_, ?_⟩
  all_goals
    rw [List.map_map, ← List.length_zipWith (f := tok.encode)]
    apply map_eq_replicate_of_forall
    intro enc h
    simp only [Function.comp_apply]
  · rw [padTo_length]
    simpa using mem_le_foldl_max _ 0 enc h
  · rw [padTo_length]
    simpa using mem_le_foldl_max _ 0 enc h
  · rw [maskTo_length]
    exact mem_le_foldl_max _ 0 enc h

/-- C4: for every non-empty list of records, a collated batch has all four
arrays of leading dimension exactly `B`, the three token arrays
rectangular of one identical shape, and `labels` the target values of the
records in input order. -/
theorem collate_batch_shapes :
    ∀ (c : TransformerCollate) (bs : List ProteinData), bs ≠ [] →
      ((c.call bs).input_ids.length = bs.length ∧
       (c.call bs).token_type_ids.length = bs.length ∧
       (c.call bs).attention_mask.length = bs.length ∧
       (c.call bs).labels.length = bs.length) ∧
      (∃ L, (c.call bs).input_ids.map List.length
              = List.replicate bs.length L ∧
            (c.call bs).token_type_ids.map List.length
              = List.replicate bs.length L ∧
            (c.call bs).attention_mask.map List.length
              = List.replicate bs.length L) ∧
      (c.call bs).labels = bs.map (fun r => r.ic50) := by
  intro c bs _
  refine ⟨?_, ?_, ?_⟩
  · simp [TransformerCollate.call, Tokenizer.call]
  · have h := tokenizer_call_rect c.tokenizer
      (bs.map (fun item => item.ligand)) (bs.map (fun item => item.protein))
    simpa [TransformerCollate.call] using h
  · simp [TransformerCollate.call]

/-- Witness for C4: the label-ordering conclusion at a concrete 2-record
batch with the stub tokenizer. -/
theorem collate_batch_shapes_witness :
    (TransformerCollate.call ⟨tokStub⟩
        [⟨.str "CCO", .str "MK", .num 10⟩, ⟨.str "CCN", .str "MV", .num 20⟩]).labels
      = [Cell.num 10, Cell.num 20] := by
  have h := (collate_batch_shapes ⟨tokStub⟩
    [⟨.str "CCO", .str "MK", .num 10⟩, ⟨.str "CCN", .str "MV", .num 20⟩]
    (by simp)).2.2
  simpa using h

lemma rowGet_error {row : List (String × Cell)} {name : String} {d : DataError}
    (h : rowGet row name = .error d) : d = .schemaError name := by
  unfold rowGet at h
  rcases hfind : row.find? (fun c => c.1 == name) with _ | c <;>
    rw [hfind] at h <;> simp at h
  exact h.symm

/-- C5: Record Projection is a pure lookup: an index with a row resolves to
the Record whose three fields are bound by column name; an index at or past
the row count fails with the IndexError-class condition; a row lacking any
of the three expected column names fails with a SchemaError-class
condition. -/
theorem getitem_by_name_contract :
    (∀ (df : DataFrame) (idx : ℕ), ProteinSMILESDataset.len df ≤ idx →
      ProteinSMILESDataset.getitem df idx = .error .indexError) ∧
    (∀ (df : DataFrame) (idx : ℕ) (row : List (String × Cell)) (l p t : Cell),
      df.rows.get? idx = some row →
      rowGet row "Ligand SMILES" = .ok l →
      rowGet row "BindingDB Target Chain Sequence" = .ok p →
      rowGet row "IC50 (nM)" = .ok t →
      ProteinSMILESDataset.getitem df idx = .ok ⟨l, p, t⟩) ∧
    (∀ (df : DataFrame) (idx : ℕ) (row : List (String × Cell)),
      df.rows.get? idx = some row →
      (rowGet row "Ligand SMILES" = .error (.schemaError "Ligand SMILES") ∨
       rowGet row "BindingDB Target Chain Sequence"
         = .error (.schemaError "BindingDB Target Chain Sequence") ∨
       rowGet row "IC50 (nM)" = .error (.schemaError "IC50 (nM)")) →
      ∃ c, ProteinSMILESDataset.getitem df idx = .error (.schemaError c)) := by
  refine ⟨?_, ?_, ?_⟩
  · intro df idx h
    have h0 : df.rows.get? idx = none := List.get?_eq_none.mpr h
    rw [List.get?_eq_getElem?] at h0
    simp [ProteinSMILESDataset.getitem, DataFrame.iloc, h0, Bind.bind, Except.bind]
  · intro df idx row l p t h0 h1 h2 h3
    rw [List.get?_eq_getElem?] at h0
    simp [ProteinSMILESDataset.getitem, DataFrame.iloc, h0, h1, h2, h3,
      Bind.bind, Except.bind, Pure.pure, Except.pure]
  · intro df idx row h0 hfail
    rw [List.get?_eq_getElem?] at h0
    rcases h1 : rowGet row "Ligand SMILES" with d | lc
    · obtain rfl := rowGet_error h1
      exact ⟨"Ligand SMILES", by
        simp [ProteinSMILESDataset.getitem, DataFrame.iloc, h0, h1,
          Bind.bind, Except.bind]⟩
    · rcases h2 : rowGet row "BindingDB Target Chain Sequence" with d | pc
      · obtain rfl := rowGet_error h2
        exact ⟨"BindingDB Target Chain Sequence", by
          simp [ProteinSMILESDataset.getitem, DataFrame.iloc, h0, h1, h2,
            Bind.bind, Except.bind]⟩
      · rcases h3 : rowGet row "IC50 (nM)" with d | tc
        · obtain rfl := rowGet_error h3
          exact ⟨"IC50 (nM)", by
            simp [ProteinSMILESDataset.getitem, DataFrame.iloc, h0, h1, h2, h3,
              Bind.bind, Except.bind]⟩
        · rcases hfail with hf | hf | hf <;> simp_all

/-- Witness for C5: the three contract cases on a concrete one-row table
(and a malformed table missing the ligand column). -/
theorem getitem_by_name_contract_witness :
    ProteinSMILESDataset.getitem
        ⟨[[("Ligand SMILES", .str "CCO"),
           ("BindingDB Target Chain Sequence", .str "MKV"),
           ("IC50 (nM)", .num 40)]]⟩ 0
      = .ok ⟨.str "CCO", .str "MKV", .num 40⟩ ∧
    ProteinSMILESDataset.getitem
        ⟨[[("Ligand SMILES", .str "CCO"),
           ("BindingDB Target Chain Sequence", .str "MKV"),
           ("IC50 (nM)", .num 40)]]⟩ 1
      = .error .indexError ∧
    (∃ c, ProteinSMILESDataset.getitem
        ⟨[[("BindingDB Target Chain Sequence", .str "MKV"),
           ("IC50 (nM)", .num 40)]]⟩ 0
      = .error (.schemaError c)) := by
  refine ⟨?_, ?_, ?_⟩
  · exact getitem_by_name_contract.2.1 _ 0
      [("Ligand SMILES", .str "CCO"),
       ("BindingDB Target Chain Sequence", .str "MKV"),
       ("IC50 (nM)", .num 40)]
      (.str "CCO") (.str "MKV") (.num 40) rfl rfl rfl rfl
  · exact getitem_by_name_contract.1 _ 1 (by decide)
  · exact getitem_by_name_contract.2.2 _ 0
      [("BindingDB Target Chain Sequence", .str "MKV"), ("IC50 (nM)", .num 40)]
      rfl (Or.inl rfl)

/-- C6 counterexample: a record whose ligand string is empty (and whose
protein string is whitespace-only, hence empty after stripping) is one the
spec says collation must reject with a TokenizationError
(`collateSpecRejects` is true on it), yet `TransformerCollate.__call__`
performs no such check and happily produces a well-formed batch for it. -/
theorem collate_accepts_blank_cex :
    collateSpecRejects [⟨.str "", .str " ", .num 40⟩] = true ∧
    TransformerCollate.call ⟨tokStub⟩ [⟨.str "", .str " ", .num 40⟩]
      = ⟨[[1, 2]], [[0, 1]], [[true, true]], [.num 40]⟩ := by
  constructor
  · decide
  · decide

/-- C6 amended: the tokenizer resource is loaded eagerly at construction,
so an unloadable-resource failure surfaces exactly once, at construction
time (`TransformerCollate.init` propagates a load failure and otherwise
stores the loaded tokenizer); collation itself performs no empty-string
validation — `__call__` is total and processes every batch, blank strings
included, failing only if the tokenizer collaborator itself fails. -/
theorem collate_eager_load_amended :
    (∀ (load : String → Except TokenizationError Tokenizer) (path : String)
        (err : TokenizationError),
      load path = .error err → TransformerCollate.init load path = .error err) ∧
    (∀ (load : String → Except TokenizationError Tokenizer) (path : String)
        (tok : Tokenizer),
      load path = .ok tok → TransformerCollate.init load path = .ok ⟨tok⟩) ∧
    (∀ (c : TransformerCollate) (batches : List ProteinData),
      (c.call batches).labels = batches.map (fun r => r.ic50)) := by
  refine ⟨?_, ?_, ?_⟩
  · intro load path err h
    simp [TransformerCollate.init, h, Bind.bind, Except.bind]
  · intro load path tok h
    simp [TransformerCollate.init, h, Bind.bind, Except.bind, Pure.pure,
      Except.pure]
  · intro c batches
    simp [TransformerCollate.call]

/-- Witness for C6 (amended): construction-time surfacing of an unloadable
tokenizer resource, and successful construction from a loadable one. -/
theorem collate_eager_load_amended_witness :
    TransformerCollate.init (fun _ => .error (.unloadable "Chem_Tokenizer_3"))
        "Chem_Tokenizer_3" = .error (.unloadable "Chem_Tokenizer_3") ∧
    TransformerCollate.init (fun _ => .ok tokStub) "Chem_Tokenizer_3"
      = .ok ⟨tokStub⟩ := by
  constructor
  · exact collate_eager_load_amended.1 _ "Chem_Tokenizer_3" _ rfl
  · exact collate_eager_load_amended.2.1 _ "Chem_Tokenizer_3" _ rfl
